import Mathlib

/-
Verification of the learning/scoring core of the repository.

The Python modules stock_learner.py and agents/stock_agent.py are shallowly
embedded below.  Python floats are modelled as exact rationals; the Python
built-in round (round half to even) is modelled by rhe; Python int() on a
non-negative float is modelled by Int.floor followed by Int.toNat.  Dates,
which the source stores as "YYYY-MM-DD" strings ordered lexicographically,
are modelled as naturals with the usual order.  The ambient clock
(datetime.now) becomes an explicit parameter named today; the persisted
memory.json structure becomes the Memory record, and each public operation
becomes a pure function on Memory.
-/

set_option autoImplicit false
set_option maxHeartbeats 1000000
set_option maxRecDepth 8000

-- ── Rounding: Python round(x, k) is round half to even at k decimals ──

/-- Round half to even of a rational to an integer, as Python round does. -/
def rhe (q : ℚ) : ℤ :=
  if q - ⌊q⌋ < 1/2 then ⌊q⌋
  else if 1/2 < q - ⌊q⌋ then ⌊q⌋ + 1
  else if ⌊q⌋ % 2 = 0 then ⌊q⌋ else ⌊q⌋ + 1

/-- Python round(x, 3). -/
def rhe3 (q : ℚ) : ℚ := (rhe (q * 1000) : ℚ) / 1000

/-- Python round(x, 1). -/
def rhe1 (q : ℚ) : ℚ := (rhe (q * 10) : ℚ) / 10

-- ── stock_learner.py: sentiment word lists (lines 15-33) ──

def POSITIVE_WORDS : List String :=
  ["surge", "soar", "rally", "jump", "gain", "profit", "growth", "boost",
   "bullish", "record", "high", "upgrade", "beat", "exceed", "strong",
   "positive", "optimistic", "recover", "rise", "improve", "expansion",
   "innovation", "breakthrough", "partnership", "deal", "acquisition",
   "launch", "success", "milestone", "revenue", "earnings", "dividend",
   "outperform", "buy", "invest", "boom", "demand", "opportunity",
   "upbeat", "momentum", "advance", "achieve", "award", "approve"]

def NEGATIVE_WORDS : List String :=
  ["crash", "plunge", "drop", "fall", "loss", "decline", "bearish",
   "downgrade", "miss", "weak", "negative", "pessimistic", "recession",
   "crisis", "risk", "concern", "fear", "uncertainty", "volatile",
   "sell", "dump", "layoff", "cut", "slash", "debt", "default",
   "scandal", "fraud", "investigation", "penalty", "fine", "warning",
   "slowdown", "contraction", "inflation", "tariff", "sanction", "ban",
   "delay", "failure", "reject", "lawsuit", "bankrupt", "collapse"]

-- ── stock_learner.py: analyze_sentiment (lines 47-62) ──

/-- The punctuation characters of the Python call w.strip to the chars
dot comma bang question semicolon colon. -/
def isPunctC (c : Char) : Bool :=
  c == '.' || c == ',' || c == '!' || c == '?' || c == ';' || c == ':'

/-- Python w.strip with that set: remove the characters from both ends. -/
def stripPunct (w : String) : String :=
  String.mk (((w.toList.dropWhile isPunctC).reverse.dropWhile isPunctC).reverse)

/-- Splitting on whitespace runs, as Python str.split with no argument:
maximal non-whitespace runs, empties discarded. -/
def splitWsAux (cur : List Char) : List Char → List (List Char)
  | [] => if cur = [] then [] else [cur.reverse]
  | c :: t =>
      if c.isWhitespace then
        if cur = [] then splitWsAux [] t else cur.reverse :: splitWsAux [] t
      else splitWsAux (c :: cur) t

/-- text.lower().split() of the source. -/
def wordsOf (text : String) : List String :=
  (splitWsAux [] (text.toList.map Char.toLower)).map String.mk

def posCountOf (text : String) : ℕ :=
  (wordsOf text).countP (fun w => POSITIVE_WORDS.contains (stripPunct w))

def negCountOf (text : String) : ℕ :=
  (wordsOf text).countP (fun w => NEGATIVE_WORDS.contains (stripPunct w))

/-- analyze_sentiment of stock_learner.py: empty text gives 0, no matched
words gives 0, otherwise round((pos - neg) / (pos + neg), 3). -/
def analyze_sentiment (text : String) : ℚ :=
  if text = "" then 0
  else if posCountOf text + negCountOf text = 0 then 0
  else rhe3 ((((posCountOf text : ℚ)) - (negCountOf text : ℚ)) /
             ((posCountOf text : ℚ) + (negCountOf text : ℚ)))

-- Spec-side definitions for claim C2, written from the words of the claim:
-- a token matches after stripping only TRAILING punctuation.

/-- Modelled from the claim wording: strip only trailing punctuation. -/
def stripTrailingPunct (w : String) : String :=
  String.mk ((w.toList.reverse.dropWhile isPunctC).reverse)

/-- Claim-side predicate: no token of the text matches either word set after
stripping only trailing punctuation. -/
def noSentimentTokenTrailing (text : String) : Bool :=
  (wordsOf text).all (fun w =>
    !(POSITIVE_WORDS.contains (stripTrailingPunct w)) &&
    !(NEGATIVE_WORDS.contains (stripTrailingPunct w)))

/-- Amended-claim predicate matching the code: no token of the text matches
either word set after stripping leading and trailing punctuation. -/
def noSentimentTokenStripped (text : String) : Bool :=
  (wordsOf text).all (fun w =>
    !(POSITIVE_WORDS.contains (stripPunct w)) &&
    !(NEGATIVE_WORDS.contains (stripPunct w)))

-- ── agents/stock_agent.py: scoring-engine confidence (line 296) ──

/-- confidence = min(100, int((indicators_used / 6) * 100)) of _score_stock;
Python int() truncates the non-negative float, hence Int.floor. -/
def scoreConfidence (n : ℕ) : ℕ :=
  min 100 (Int.toNat ⌊((n : ℚ) / 6) * 100⌋)

/-- Modelled from the spec wording of the confidence formula, which says
round rather than truncate: min(100, round(100 x n / 6)). -/
def specRoundConfidence (n : ℕ) : ℕ :=
  min 100 (Int.toNat (rhe ((100 * (n : ℚ)) / 6)))

-- ── agents/stock_agent.py: _score_to_recommendation (lines 301-328) ──

/-- The action word of the if-chain of _score_to_recommendation. -/
def scoreLabel (score : ℚ) : String :=
  if 50 ≤ score then "STRONG BUY"
  else if 25 ≤ score then "BUY"
  else if 10 ≤ score then "LEAN BUY"
  else if -10 < score then "HOLD"
  else if -25 < score then "LEAN SELL"
  else if -50 < score then "SELL"
  else "STRONG SELL"

/-- The emoji of the same if-chain. -/
def scoreEmoji (score : ℚ) : String :=
  if 50 ≤ score then "🟢🟢"
  else if 25 ≤ score then "🟢"
  else if 10 ≤ score then "🟡↑"
  else if -10 < score then "🟡"
  else if -25 < score then "🟡↓"
  else if -50 < score then "🔴"
  else "🔴🔴"

/-- conf_label = High if confidence >= 80 else Medium if >= 50 else Low. -/
def confLabel (confidence : ℕ) : String :=
  if 80 ≤ confidence then "High"
  else if 50 ≤ confidence then "Medium"
  else "Low"

/-- _score_to_recommendation returns the emoji-prefixed action label and the
confidence label. -/
def score_to_recommendation (score : ℚ) (confidence : ℕ) : String × String :=
  (scoreEmoji score ++ " " ++ scoreLabel score, confLabel confidence)

-- ── stock_learner.py: data model of memory.json ──

/-- One entry of stock_history: date, price, change_pct (lines 131-135). -/
structure PricePoint where
  date : ℕ
  price : ℚ
  change_pct : ℚ
deriving DecidableEq

/-- One entry of news_sentiment: date, headline, sentiment, sectors
(lines 163-168). -/
structure NewsObs where
  date : ℕ
  headline : String
  sentiment : ℚ
  sectors : List String
deriving DecidableEq

/-- One correlations record (lines 221-230). -/
structure Corr where
  data_points : ℕ
  avg_sentiment_before_up : ℚ
  avg_sentiment_before_down : ℚ
  avg_sentiment_before_neutral : ℚ
  up_days : ℕ
  down_days : ℕ
  neutral_days : ℕ
  sentiment_impact_score : ℚ
deriving DecidableEq

/-- One predictions_log entry (lines 323-329); the grading fields that the
verifier adds later (lines 357-363) are optional, and the verified flag,
read with pred.get, defaults to false when absent. -/
structure PredictionRecord where
  date : ℕ
  symbol : String
  predicted_direction : String
  confidence : ℚ
  news_sentiment : ℚ
  actual_direction : Option String
  actual_change : Option ℚ
  correct : Option Bool
  verified : Bool
deriving DecidableEq

/-- learning_stats (lines 86-91). -/
structure LearningStats where
  total_days : ℕ
  correct_predictions : ℕ
  total_predictions : ℕ
  last_updated : Option ℕ
deriving DecidableEq

/-- The whole persisted memory structure.  Python dicts keyed by symbol are
modelled as association lists in insertion order. -/
structure Memory where
  stock_history : List (String × List PricePoint)
  news_sentiment : List NewsObs
  correlations : List (String × Corr)
  predictions_log : List PredictionRecord
  learning_stats : LearningStats
deriving DecidableEq

/-- _default_memory (lines 79-92). -/
def defaultMemory : Memory :=
  { stock_history := [], news_sentiment := [], correlations := [],
    predictions_log := [],
    learning_stats :=
      { total_days := 0, correct_predictions := 0, total_predictions := 0,
        last_updated := none } }

-- ── association-list operations modelling Python dict access ──

/-- dict lookup d.get(k): first binding of the key. -/
def alookup {α : Type} (k : String) : List (String × α) → Option α
  | [] => none
  | e :: t => if e.1 = k then some e.2 else alookup k t

/-- dict write d[k] = v: replace the binding in place, else append. -/
def upsert {α : Type} (k : String) (v : α) : List (String × α) → List (String × α)
  | [] => [(k, v)]
  | e :: t => if e.1 = k then (k, v) :: t else e :: upsert k v t

-- ── stock_learner.py: learn_correlations (lines 178-241) ──

/-- The adjacent day pairs (history[i-1], history[i]) of the learning loop. -/
def adjPairs {α : Type} : List α → List (α × α)
  | a :: b :: t => (a, b) :: adjPairs (b :: t)
  | _ => []

/-- The loop of lines 198-219: for each adjacent pair collect the news of the
two days, average the sentiment, and bucket it by the sign of change_pct
against the 0.5 percent dead zone. -/
def bucketsOf (history : List PricePoint) (news : List NewsObs) :
    List ℚ × List ℚ × List ℚ :=
  (adjPairs history).foldl
    (fun acc pr =>
      let ds := (news.filter
        (fun n => n.date = pr.1.date ∨ n.date = pr.2.date)).map (·.sentiment)
      if ds = [] then acc
      else
        let avg := ds.sum / (ds.length : ℚ)
        if (0.5 : ℚ) < pr.2.change_pct then (acc.1 ++ [avg], acc.2.1, acc.2.2)
        else if pr.2.change_pct < (-0.5 : ℚ) then (acc.1, acc.2.1 ++ [avg], acc.2.2)
        else (acc.1, acc.2.1, acc.2.2 ++ [avg]))
    ([], [], [])

/-- round(sum / len, 3) if the bucket is non-empty, else 0 (lines 223-225). -/
def avgOr0 (l : List ℚ) : ℚ :=
  if l = [] then 0 else rhe3 (l.sum / (l.length : ℚ))

/-- The correlation record built at lines 221-235: bucket means, counts, and
the impact score |mean-up - mean-down| when both buckets are non-empty. -/
def computeCorr (history : List PricePoint) (news : List NewsObs) : Corr :=
  let b := bucketsOf history news
  let c : Corr :=
    { data_points := history.length,
      avg_sentiment_before_up := avgOr0 b.1,
      avg_sentiment_before_down := avgOr0 b.2.1,
      avg_sentiment_before_neutral := avgOr0 b.2.2,
      up_days := b.1.length,
      down_days := b.2.1.length,
      neutral_days := b.2.2.length,
      sentiment_impact_score := 0 }
  if b.1 ≠ [] ∧ b.2.1 ≠ [] then
    { c with sentiment_impact_score := rhe3 (abs (avgOr0 b.1 - avgOr0 b.2.1)) }
  else c

/-- One iteration of the symbol loop: symbols with fewer than 3 history
points are skipped (lines 190-192), the rest get a fresh record. -/
def learnStep (news : List NewsObs) (c : List (String × Corr))
    (e : String × List PricePoint) : List (String × Corr) :=
  if e.2.length < 3 then c else upsert e.1 (computeCorr e.2 news) c

/-- learn_correlations as a transformer of the memory state: only the
correlations section changes. -/
def learnMem (m : Memory) : Memory :=
  { m with correlations :=
      (m.stock_history.foldl (learnStep m.news_sentiment) m.correlations) }

-- ── stock_learner.py: predict_movement (lines 244-333) ──

/-- The news sentiment values of the last 24 hours (lines 252-259):
observations dated yesterday or later. -/
def recentOf (today : ℕ) (m : Memory) : List ℚ :=
  (m.news_sentiment.filter (fun n => today - 1 ≤ n.date)).map (·.sentiment)

/-- Lines 266-271: when the symbol has no correlation yet, run learning once
and reload the memory. -/
def preLearn (symbol : String) (m : Memory) : Memory :=
  if (alookup symbol m.correlations).isNone then learnMem m else m

/-- Lines 288-297: the distance of the current sentiment to each bucket
mean, with a bucket mean of exactly 0 replaced by the fixed distance 1; the
strictly nearer bucket wins, otherwise SIDEWAYS. -/
def predDirection (current up down : ℚ) : String :=
  let dist_to_up := if up ≠ 0 then |current - up| else 1
  let dist_to_down := if down ≠ 0 then |current - down| else 1
  if dist_to_up < dist_to_down then "UP 📈"
  else if dist_to_down < dist_to_up then "DOWN 📉"
  else "SIDEWAYS ➡️"

/-- Lines 299-305: confidence = min(round((0.4 data + 0.6 pattern) x 100, 1), 85). -/
def predConfidence (dp : ℕ) (impact : ℚ) : ℚ :=
  min (rhe1 ((min ((dp : ℚ) / 60) 1 * 0.4 + min (impact * 2) 1 * 0.6) * 100)) 85

/-- The amended-claim distance of C8: a bucket mean of 0 acts as the fixed
distance 1, otherwise the absolute difference. -/
def adjDist (s mean : ℚ) : ℚ := if mean = 0 then 1 else |s - mean|

/-- The spec formula of claims C1: 100 x (0.4 min(dp/60,1) + 0.6 min(2 impact,1))
capped at 85, with no rounding. -/
def specConfFormula (dp : ℕ) (impact : ℚ) : ℚ :=
  min (100 * (0.4 * min ((dp : ℚ) / 60) 1 + 0.6 * min (impact * 2) 1)) 85

/-- The LEARNING reasoning string of lines 277-281. -/
def learningMsg (n : ℕ) : String :=
  "Still learning... (" ++ toString n ++
  " data points collected. Need at least 7 days for basic predictions, 30+ days for reliable ones.)"

/-- The reasoning narrative of lines 307-319.  The Python fixed-decimal float
formatting is rendered by toString on the exact rationals. -/
def predReasoning (c : Corr) (current : ℚ) : String :=
  let total_days := c.up_days + c.down_days + c.neutral_days
  let up_pct := if 0 < total_days then rhe1 ((c.up_days : ℚ) / (total_days : ℚ) * 100) else 0
  let down_pct := if 0 < total_days then rhe1 ((c.down_days : ℚ) / (total_days : ℚ) * 100) else 0
  "Based on " ++ toString c.data_points ++ " days of learning:\n" ++
  "  • Current news sentiment: " ++ toString current ++ "\n" ++
  "  • Historical: " ++ toString up_pct ++ "% up days, " ++ toString down_pct ++ "% down days\n" ++
  "  • News-price correlation strength: " ++ toString c.sentiment_impact_score ++ "\n" ++
  "  • Avg sentiment before UP days: " ++ toString c.avg_sentiment_before_up ++ "\n" ++
  "  • Avg sentiment before DOWN days: " ++ toString c.avg_sentiment_before_down

/-- Python log[-500:]: keep the most recent n entries. -/
def lastN {α : Type} (n : ℕ) (l : List α) : List α := l.drop (l.length - n)

/-- The result triple of predict_movement. -/
structure PredResult where
  direction : String
  confidence : ℚ
  reasoning : String
deriving DecidableEq

/-- predict_movement as a transformer of the memory state, returning the new
memory and the result triple.  The NEUTRAL and LEARNING branches return
without touching the log; only the directional branch appends a record
(lines 321-331), bounded to the last 500 entries.  The current sentiment is
computed, as in the source, before the correlation checks; it is written
inline here, which does not change any value. -/
def predictMem (today : ℕ) (symbol : String) (m : Memory) : Memory × PredResult :=
  if recentOf today m = [] then
    (m, ⟨"NEUTRAL", 0, "Not enough recent news data to make a prediction."⟩)
  else
    match alookup symbol (preLearn symbol m).correlations with
    | none => (preLearn symbol m, ⟨"LEARNING", 0, learningMsg 0⟩)
    | some c =>
      if c.data_points < 3 then
        (preLearn symbol m, ⟨"LEARNING", 0, learningMsg c.data_points⟩)
      else
        let current := (recentOf today m).sum / ((recentOf today m).length : ℚ)
        let direction := predDirection current
          c.avg_sentiment_before_up c.avg_sentiment_before_down
        let confidence := predConfidence c.data_points c.sentiment_impact_score
        let record : PredictionRecord :=
          { date := today, symbol := symbol, predicted_direction := direction,
            confidence := confidence, news_sentiment := rhe3 current,
            actual_direction := none, actual_change := none, correct := none,
            verified := false }
        ({ preLearn symbol m with predictions_log :=
             (lastN 500 ((preLearn symbol m).predictions_log ++ [record])) },
         ⟨direction, confidence, predReasoning c current⟩)

-- ── stock_learner.py: verify_past_predictions (lines 336-379) ──

/-- Substring membership, Python s2 in s1, on character lists. -/
def leadMatch : List Char → List Char → Bool
  | [], _ => true
  | _ :: _, [] => false
  | a :: s, b :: t => a == b && leadMatch s t

def containsSeq (sub : List Char) : List Char → Bool
  | [] => sub.isEmpty
  | c :: t => leadMatch sub (c :: t) || containsSeq sub t

def strContains (s sub : String) : Bool := containsSeq sub.toList s.toList

/-- The first history entry dated strictly after the prediction (line 356). -/
def firstAfter (history : List PricePoint) (d : ℕ) : Option PricePoint :=
  history.find? (fun h => decide (d < h.date))

/-- Grading of one record (lines 346-367): already verified records are
skipped; otherwise the first later history point grades the record.  The
boolean reports whether the record was newly verified. -/
def gradePred (hist : List (String × List PricePoint)) (p : PredictionRecord) : PredictionRecord × Bool :=
  if p.verified then (p, false)
  else
    match firstAfter ((alookup p.symbol hist).getD []) p.date with
    | none => (p, false)
    | some h =>
      ({ p with
          actual_direction := some (if 0 < h.change_pct then "UP 📈" else "DOWN 📉"),
          actual_change := some h.change_pct,
          correct := some ((strContains p.predicted_direction "UP" &&
                             decide (0 < h.change_pct)) ||
                           (strContains p.predicted_direction "DOWN" &&
                             decide (h.change_pct < 0))),
          verified := true }, true)

/-- verify_past_predictions as a transformer of the memory state: when at
least one record was newly graded, the log is replaced and the stats totals
are recounted from the full log (lines 369-377); otherwise nothing is
written back. -/
def verifyMem (m : Memory) : Memory :=
  if 0 < ((m.predictions_log.map (gradePred m.stock_history)).countP (fun r => r.2)) then
    { m with
        predictions_log :=
          ((m.predictions_log.map (gradePred m.stock_history)).map Prod.fst),
        learning_stats :=
          ({ m.learning_stats with
              total_predictions :=
                (((m.predictions_log.map (gradePred m.stock_history)).map Prod.fst).countP
                  (fun p => p.verified)),
              correct_predictions :=
                (((m.predictions_log.map (gradePred m.stock_history)).map Prod.fst).countP
                  (fun p => p.correct == some true)) }) }
  else m

-- ── concrete states used by witnesses and counterexamples ──

/-- A correlation record with 4 data points and impact 0; at it the exact
spec confidence formula gives 8/3 while the code, which rounds to one
decimal first, gives 2.7. -/
def cC1 : Corr :=
  { data_points := 4, avg_sentiment_before_up := 0,
    avg_sentiment_before_down := 0, avg_sentiment_before_neutral := 0,
    up_days := 0, down_days := 0, neutral_days := 3,
    sentiment_impact_score := 0 }

def mC1 : Memory :=
  { defaultMemory with
    news_sentiment := [⟨10, "h", 0, ["general"]⟩],
    correlations := [("X", cC1)] }

/-- A correlation record whose up-bucket mean is exactly 0: the code then
uses the fixed distance 1 for the up bucket. -/
def cC8 : Corr :=
  { data_points := 3, avg_sentiment_before_up := 0,
    avg_sentiment_before_down := 1/2, avg_sentiment_before_neutral := 0,
    up_days := 0, down_days := 2, neutral_days := 0,
    sentiment_impact_score := 1/2 }

def mC8 : Memory :=
  { defaultMemory with
    news_sentiment := [⟨10, "h", 1/10, ["general"]⟩],
    correlations := [("X", cC8)] }

/-- An instrument with exactly two price points and no news. -/
def histC9 : List PricePoint := [⟨7, 100, 0⟩, ⟨8, 101, 1⟩]

def mC9 : Memory := { defaultMemory with stock_history := [("X", histC9)] }

def mC9b : Memory :=
  { mC9 with news_sentiment := [⟨10, "h", 0, ["general"]⟩] }

/-- An instrument with three price points and one news item. -/
def histW5 : List PricePoint := [⟨1, 100, 1⟩, ⟨2, 101, -1⟩, ⟨3, 100, 1/5⟩]

def mW5 : Memory :=
  { defaultMemory with
    stock_history := [("X", histW5)],
    news_sentiment := [⟨1, "gain", 1, ["general"]⟩] }

def mW10 : Memory :=
  { defaultMemory with
    stock_history := [("X", histW5)],
    correlations := [("X", cC1)] }

def pC4 : PredictionRecord :=
  { date := 1, symbol := "X", predicted_direction := "UP 📈",
    confidence := 50, news_sentiment := 0,
    actual_direction := none, actual_change := none, correct := none,
    verified := true }

-- ── helper lemmas on the rounding function ──

theorem rhe_le (q : ℚ) : (rhe q : ℚ) ≤ q + 1/2 := by
  unfold rhe
  split_ifs with h1 h2 h3
  · have := Int.floor_le q
    linarith
  · push_cast
    linarith
  · have h4 : q - (⌊q⌋ : ℚ) = 1/2 := le_antisymm (not_lt.mp h2) (not_lt.mp h1)
    linarith
  · have h4 : q - (⌊q⌋ : ℚ) = 1/2 := le_antisymm (not_lt.mp h2) (not_lt.mp h1)
    push_cast
    linarith

theorem le_rhe (q : ℚ) : q - 1/2 ≤ (rhe q : ℚ) := by
  unfold rhe
  split_ifs with h1 h2 h3
  · linarith
  · have := Int.lt_floor_add_one q
    push_cast
    linarith
  · have h4 : q - (⌊q⌋ : ℚ) = 1/2 := le_antisymm (not_lt.mp h2) (not_lt.mp h1)
    linarith
  · have h4 : q - (⌊q⌋ : ℚ) = 1/2 := le_antisymm (not_lt.mp h2) (not_lt.mp h1)
    push_cast
    linarith

theorem rhe3_le_one {q : ℚ} (h : q ≤ 1) : rhe3 q ≤ 1 := by
  have h1 : (rhe (q * 1000) : ℚ) ≤ q * 1000 + 1/2 := rhe_le (q * 1000)
  have h2 : (rhe (q * 1000) : ℚ) < 1001 := by nlinarith
  have h3 : rhe (q * 1000) < 1001 := by exact_mod_cast h2
  have h4 : rhe (q * 1000) ≤ 1000 := by omega
  unfold rhe3
  rw [div_le_one (by norm_num : (0:ℚ) < 1000)]
  exact_mod_cast h4

theorem neg_one_le_rhe3 {q : ℚ} (h : -1 ≤ q) : -1 ≤ rhe3 q := by
  have h1 : q * 1000 - 1/2 ≤ (rhe (q * 1000) : ℚ) := le_rhe (q * 1000)
  have h2 : (-1001 : ℚ) < (rhe (q * 1000) : ℚ) := by nlinarith
  have h3 : (-1001 : ℤ) < rhe (q * 1000) := by exact_mod_cast h2
  have h4 : (-1000 : ℤ) ≤ rhe (q * 1000) := by omega
  have h5 : ((-1000 : ℤ) : ℚ) ≤ ((rhe (q * 1000) : ℤ) : ℚ) := by exact_mod_cast h4
  unfold rhe3
  rw [le_div_iff₀ (by norm_num : (0:ℚ) < 1000)]
  push_cast at h5 ⊢
  linarith

-- ── C6: scoring-engine confidence ──

/-- C6 counterexample: the claim says round, the code truncates; for one
computable indicator the code yields 16 while min(100, round(100 x 1 / 6))
is 17. -/
theorem C6_cex : scoreConfidence 1 = 16 ∧ specRoundConfidence 1 = 17 ∧ (16 : ℕ) ≠ 17 := by
  refine ⟨?_, ?_, by norm_num⟩
  · norm_num [scoreConfidence]
    rfl
  · norm_num [specRoundConfidence, rhe]
    rfl

/-- C6 amended: for every number of computable indicators n in 0..6 the
confidence of the scoring engine equals min(100, floor(100 x n / 6)), the
floor being the Python int() truncation. -/
theorem C6_amended : ∀ n : ℕ, n < 7 → scoreConfidence n = min 100 (100 * n / 6) := by
  intro n hn
  interval_cases n <;> (norm_num [scoreConfidence]; try rfl)

/-- C6 witness at n = 4: the code gives 66. -/
theorem C6_witness : scoreConfidence 4 = min 100 (100 * 4 / 6) :=
  C6_amended 4 (by norm_num)

-- ── C3: score-to-label mapping ──

/-- C3: the label mapping of _score_to_recommendation is total and
non-overlapping: each of the seven action labels is produced exactly on the
claimed score interval, and the confidence label is High exactly at 80 and
above, Medium exactly on 50..79, Low exactly below 50. -/
theorem C3_labels :
    (∀ s : ℚ,
      (scoreLabel s = "STRONG BUY" ↔ 50 ≤ s) ∧
      (scoreLabel s = "BUY" ↔ 25 ≤ s ∧ s < 50) ∧
      (scoreLabel s = "LEAN BUY" ↔ 10 ≤ s ∧ s < 25) ∧
      (scoreLabel s = "HOLD" ↔ -10 < s ∧ s < 10) ∧
      (scoreLabel s = "LEAN SELL" ↔ -25 < s ∧ s ≤ -10) ∧
      (scoreLabel s = "SELL" ↔ -50 < s ∧ s ≤ -25) ∧
      (scoreLabel s = "STRONG SELL" ↔ s ≤ -50)) ∧
    (∀ c : ℕ,
      (confLabel c = "High" ↔ 80 ≤ c) ∧
      (confLabel c = "Medium" ↔ 50 ≤ c ∧ c < 80) ∧
      (confLabel c = "Low" ↔ c < 50)) := by
  constructor
  · intro s
    unfold scoreLabel
    split_ifs with h1 h2 h3 h4 h5 h6 <;>
      refine ⟨?_, ?_, ?_, ?_, ?_, ?_, ?_⟩ <;>
        constructor <;>
          intro hx <;>
            first
              | rfl
              | exact absurd hx (by decide)
              | exact ⟨by linarith, by linarith⟩
              | linarith
              | (exfalso; obtain ⟨ha, hb⟩ := hx; linarith)
              | (exfalso; linarith)
  · intro c
    unfold confLabel
    split_ifs with h1 h2 <;>
      refine ⟨?_, ?_, ?_⟩ <;>
        constructor <;>
          intro hx <;>
            first
              | rfl
              | exact absurd hx (by decide)
              | exact ⟨by omega, by omega⟩
              | omega
              | (exfalso; obtain ⟨ha, hb⟩ := hx; omega)
              | (exfalso; omega)

/-- C3 witness: a score of 60 is STRONG BUY and a confidence of 90 is High. -/
theorem C3_witness : scoreLabel 60 = "STRONG BUY" ∧ confLabel 90 = "High" :=
  ⟨(C3_labels.1 60).1.mpr (by norm_num), (C3_labels.2 90).1.mpr (by norm_num)⟩

-- ── C2: analyze_sentiment ──

/-- C2 counterexample: the input ",gain" is non-empty and none of its
tokens matches a word set after stripping only trailing punctuation, so the
claim requires score 0.0; the code strips leading punctuation as well,
matches gain, and returns 1. -/
theorem C2_cex :
    noSentimentTokenTrailing ",gain" = true ∧ (",gain" : String) ≠ "" ∧
    analyze_sentiment ",gain" = 1 ∧ (1 : ℚ) ≠ 0 := by
  refine ⟨by decide, by decide, ?_, by norm_num⟩
  have hp : posCountOf ",gain" = 1 := by decide
  have hn : negCountOf ",gain" = 0 := by decide
  unfold analyze_sentiment
  rw [if_neg (show ¬(",gain" = "") by decide), hp, hn]
  norm_num [rhe3, rhe]

/-- C2 amended: for every input string analyze_sentiment returns a score in
the interval -1..1, and it returns exactly 0 for every input that is empty
or has no token matching the word sets case-insensitively after stripping
leading and trailing punctuation. -/
theorem C2_amended : ∀ text : String,
    (-1 ≤ analyze_sentiment text ∧ analyze_sentiment text ≤ 1) ∧
    ((text = "" ∨ noSentimentTokenStripped text = true) → analyze_sentiment text = 0) := by
  intro text
  constructor
  · by_cases h0 : text = ""
    · rw [show analyze_sentiment text = 0 by unfold analyze_sentiment; rw [if_pos h0]]
      norm_num
    · by_cases hz : posCountOf text + negCountOf text = 0
      · rw [show analyze_sentiment text = 0 by
              unfold analyze_sentiment; rw [if_neg h0, if_pos hz]]
        norm_num
      · have hval : analyze_sentiment text =
            rhe3 (((posCountOf text : ℚ) - (negCountOf text : ℚ)) /
              ((posCountOf text : ℚ) + (negCountOf text : ℚ))) := by
          unfold analyze_sentiment
          rw [if_neg h0, if_neg hz]
        have h1 : 0 < posCountOf text + negCountOf text := Nat.pos_of_ne_zero hz
        have hpos : (0:ℚ) < (posCountOf text : ℚ) + (negCountOf text : ℚ) := by
          exact_mod_cast h1
        have hP : (0:ℚ) ≤ (posCountOf text : ℚ) := by positivity
        have hN : (0:ℚ) ≤ (negCountOf text : ℚ) := by positivity
        have hx1 : ((posCountOf text : ℚ) - (negCountOf text : ℚ)) /
            ((posCountOf text : ℚ) + (negCountOf text : ℚ)) ≤ 1 := by
          rw [div_le_one hpos]
          linarith
        have hx2 : -1 ≤ ((posCountOf text : ℚ) - (negCountOf text : ℚ)) /
            ((posCountOf text : ℚ) + (negCountOf text : ℚ)) := by
          rw [le_div_iff₀ hpos]
          linarith
        rw [hval]
        exact ⟨neg_one_le_rhe3 hx2, rhe3_le_one hx1⟩
  · intro h
    rcases h with h0 | hns
    · unfold analyze_sentiment
      rw [if_pos h0]
    · have hall := hns
      unfold noSentimentTokenStripped at hall
      rw [List.all_eq_true] at hall
      have hp : posCountOf text = 0 := by
        unfold posCountOf
        rw [List.countP_eq_zero]
        intro w hw
        have hb := hall w hw
        simp only [Bool.and_eq_true, Bool.not_eq_true'] at hb
        simpa using hb.1
      have hn : negCountOf text = 0 := by
        unfold negCountOf
        rw [List.countP_eq_zero]
        intro w hw
        have hb := hall w hw
        simp only [Bool.and_eq_true, Bool.not_eq_true'] at hb
        simpa using hb.2
      by_cases h0 : text = ""
      · unfold analyze_sentiment
        rw [if_pos h0]
      · unfold analyze_sentiment
        rw [if_neg h0, if_pos (by rw [hp, hn])]

/-- C2 witness: the text hello matches nothing and scores 0. -/
theorem C2_witness : analyze_sentiment "hello" = 0 :=
  (C2_amended "hello").2 (Or.inr (by decide))

-- ── helper lemmas on association lists ──

theorem alookup_upsert_self {α : Type} (k : String) (v : α)
    (l : List (String × α)) : alookup k (upsert k v l) = some v := by
  induction l with
  | nil => simp [upsert, alookup]
  | cons e t ih =>
    unfold upsert
    by_cases he : e.1 = k
    · rw [if_pos he]
      simp [alookup]
    · rw [if_neg he]
      unfold alookup
      rw [if_neg he]
      exact ih

theorem alookup_upsert_ne {α : Type} (k q : String) (v : α)
    (l : List (String × α)) (h : q ≠ k) :
    alookup k (upsert q v l) = alookup k l := by
  induction l with
  | nil => simp [upsert, alookup, h]
  | cons e t ih =>
    unfold upsert
    by_cases he : e.1 = q
    · rw [if_pos he]
      unfold alookup
      rw [if_neg h, if_neg (by rw [he]; exact h)]
    · rw [if_neg he]
      unfold alookup
      by_cases hek : e.1 = k
      · rw [if_pos hek, if_pos hek]
      · rw [if_neg hek, if_neg hek]
        exact ih

theorem upsert_eq_of_alookup {α : Type} (k : String) (v : α)
    (l : List (String × α)) (h : alookup k l = some v) : upsert k v l = l := by
  induction l with
  | nil => simp [alookup] at h
  | cons e t ih =>
    obtain ⟨a, b⟩ := e
    unfold alookup at h
    by_cases hek : a = k
    · rw [if_pos hek] at h
      injection h with hv
      unfold upsert
      rw [if_pos hek]
      subst hek
      subst hv
      rfl
    · rw [if_neg hek] at h
      unfold upsert
      rw [if_neg hek, ih h]

theorem alookup_none_forall {α : Type} (k : String) (l : List (String × α))
    (h : alookup k l = none) : ∀ e ∈ l, e.1 ≠ k := by
  induction l with
  | nil => intro e he; cases he
  | cons e t ih =>
    unfold alookup at h
    by_cases hek : e.1 = k
    · rw [if_pos hek] at h
      cases h
    · rw [if_neg hek] at h
      intro f hf
      rcases List.mem_cons.mp hf with rfl | hft
      · exact hek
      · exact ih h f hft

theorem mem_of_alookup {α : Type} (k : String) (v : α) (l : List (String × α))
    (h : alookup k l = some v) : (k, v) ∈ l := by
  induction l with
  | nil => simp [alookup] at h
  | cons e t ih =>
    unfold alookup at h
    by_cases hek : e.1 = k
    · rw [if_pos hek] at h
      injection h with hv
      have hkv : (k, v) = e := by rw [← hek, ← hv]
      rw [hkv]
      exact List.mem_cons_self e t
    · rw [if_neg hek] at h
      exact List.mem_cons_of_mem _ (ih h)

theorem alookup_unique {α : Type} (k : String) (v : α) (l : List (String × α))
    (hn : (l.map Prod.fst).Nodup) (h : alookup k l = some v) :
    ∀ e ∈ l, e.1 = k → e.2 = v := by
  induction l with
  | nil => intro e he; cases he
  | cons e t ih =>
    rw [List.map_cons, List.nodup_cons] at hn
    unfold alookup at h
    intro f hf hfk
    rcases List.mem_cons.mp hf with rfl | hft
    · rw [if_pos hfk] at h
      injection h
    · by_cases hek : e.1 = k
      · exfalso
        apply hn.1
        rw [hek, ← hfk]
        exact List.mem_map_of_mem Prod.fst hft
      · rw [if_neg hek] at h
        exact ih hn.2 h f hft hfk

-- ── helper lemmas on the learning fold ──

theorem alookup_foldl_untouched (news : List NewsObs)
    (l : List (String × List PricePoint)) (c : List (String × Corr)) (k : String)
    (h : ∀ e ∈ l, e.1 = k → e.2.length < 3) :
    alookup k (l.foldl (learnStep news) c) = alookup k c := by
  induction l generalizing c with
  | nil => rfl
  | cons e t ih =>
    rw [List.foldl_cons]
    rw [ih _ (fun f hf => h f (List.mem_cons_of_mem _ hf))]
    unfold learnStep
    by_cases hs : e.2.length < 3
    · rw [if_pos hs]
    · rw [if_neg hs]
      apply alookup_upsert_ne
      intro hek
      exact hs (h e (List.mem_cons_self e t) hek)

theorem alookup_foldl_present (news : List NewsObs)
    (l : List (String × List PricePoint)) (k : String) (hist : List PricePoint)
    (hn : (l.map Prod.fst).Nodup) (hm : (k, hist) ∈ l) (h3 : ¬ hist.length < 3) :
    ∀ c, alookup k (l.foldl (learnStep news) c) = some (computeCorr hist news) := by
  induction l with
  | nil => cases hm
  | cons e t ih =>
    rw [List.map_cons, List.nodup_cons] at hn
    intro c
    rw [List.foldl_cons]
    rcases List.mem_cons.mp hm with heq | hmt
    · have hk : e.1 = k := by rw [← heq]
      have hh : e.2 = hist := by rw [← heq]
      have hnk : ∀ f ∈ t, f.1 = k → f.2.length < 3 := by
        intro f hf hfk
        exfalso
        apply hn.1
        have hmem : f.1 ∈ t.map Prod.fst := List.mem_map_of_mem Prod.fst hf
        rw [hfk, ← hk] at hmem
        exact hmem
      rw [alookup_foldl_untouched news t _ k hnk]
      unfold learnStep
      rw [if_neg (by rw [hh]; exact h3), hk, hh]
      exact alookup_upsert_self k (computeCorr hist news) c
    · have hek : e.1 ≠ k := by
        intro hek
        apply hn.1
        rw [hek]
        exact List.mem_map_of_mem Prod.fst hmt
      exact ih hn.2 hmt (learnStep news c e)

theorem foldl_learnStep_fixed (news : List NewsObs)
    (l : List (String × List PricePoint)) (c : List (String × Corr))
    (h : ∀ e ∈ l, ¬ e.2.length < 3 →
      alookup e.1 c = some (computeCorr e.2 news)) :
    l.foldl (learnStep news) c = c := by
  induction l with
  | nil => rfl
  | cons e t ih =>
    rw [List.foldl_cons]
    have hstep : learnStep news c e = c := by
      unfold learnStep
      by_cases hs : e.2.length < 3
      · rw [if_pos hs]
      · rw [if_neg hs]
        exact upsert_eq_of_alookup e.1 (computeCorr e.2 news) c (h e (List.mem_cons_self e t) hs)
    rw [hstep]
    exact ih (fun f hf => h f (List.mem_cons_of_mem _ hf))

-- ── C5: learn_correlations is idempotent ──

/-- C5: with the stock history and news unchanged, a second learning pass
recomputes every correlation record from scratch to the same value, so the
memory after two passes equals the memory after one; the hypothesis is the
key uniqueness every Python dict guarantees for stock_history. -/
theorem C5_idem : ∀ m : Memory, (m.stock_history.map Prod.fst).Nodup →
    learnMem (learnMem m) = learnMem m := by
  intro m hn
  have hkey : m.stock_history.foldl (learnStep m.news_sentiment)
      (learnMem m).correlations = (learnMem m).correlations := by
    apply foldl_learnStep_fixed
    intro e he h3
    exact alookup_foldl_present m.news_sentiment m.stock_history e.1 e.2 hn he h3
      m.correlations
  calc learnMem (learnMem m)
      = { learnMem m with correlations :=
            (m.stock_history.foldl (learnStep m.news_sentiment)
              (learnMem m).correlations) } := rfl
    _ = { learnMem m with correlations := ((learnMem m).correlations) } := by rw [hkey]
    _ = learnMem m := rfl

/-- C5 witness: a concrete memory with one three-point instrument. -/
theorem C5_witness : learnMem (learnMem mW5) = learnMem mW5 :=
  C5_idem mW5 (by decide)

-- ── C10: learning never removes a correlation entry ──

/-- C10: a symbol whose correlation record is present stays present across
a learning pass: it is freshly recomputed when the symbol has at least 3
history points, and left exactly as it was otherwise. -/
theorem C10_persist : ∀ (m : Memory) (k : String) (c : Corr),
    (m.stock_history.map Prod.fst).Nodup →
    alookup k m.correlations = some c →
    ((∃ hist, alookup k m.stock_history = some hist ∧ 3 ≤ hist.length ∧
        alookup k (learnMem m).correlations =
          some (computeCorr hist m.news_sentiment)) ∨
     ((∀ hist, alookup k m.stock_history = some hist → hist.length < 3) ∧
        alookup k (learnMem m).correlations = some c)) := by
  intro m k c hn hc
  have hcorr : (learnMem m).correlations =
      m.stock_history.foldl (learnStep m.news_sentiment) m.correlations := rfl
  cases hh : alookup k m.stock_history with
  | none =>
    right
    constructor
    · intro hist hcon
      cases hcon
    · rw [hcorr, alookup_foldl_untouched _ _ _ _
        (fun e he hek => absurd hek (alookup_none_forall k m.stock_history hh e he))]
      exact hc
  | some hist =>
    by_cases h3 : 3 ≤ hist.length
    · left
      refine ⟨hist, rfl, h3, ?_⟩
      rw [hcorr]
      exact alookup_foldl_present m.news_sentiment m.stock_history k hist hn
        (mem_of_alookup k hist m.stock_history hh) (by omega) m.correlations
    · right
      constructor
      · intro hist2 hcon
        injection hcon with he
        rw [← he]
        omega
      · rw [hcorr, alookup_foldl_untouched]
        · exact hc
        · intro e he hek
          have h2 := alookup_unique k hist m.stock_history hn hh e he hek
          rw [h2]
          omega

/-- C10 witness: a present record at a three-point instrument is replaced by
the freshly recomputed one. -/
theorem C10_witness :
    (∃ hist, alookup "X" mW10.stock_history = some hist ∧ 3 ≤ hist.length ∧
        alookup "X" (learnMem mW10).correlations =
          some (computeCorr hist mW10.news_sentiment)) ∨
    ((∀ hist, alookup "X" mW10.stock_history = some hist → hist.length < 3) ∧
        alookup "X" (learnMem mW10).correlations = some cC1) :=
  C10_persist mW10 "X" cC1 (by decide) rfl

-- ── C9: the two-point no-news scenario ──

/-- C9 counterexample: for the concrete memory mC9, with one instrument,
exactly two price points and no news, the correlation is indeed absent
after learning, but predict_movement returns the NEUTRAL no-recent-news
state, not LEARNING; and even with one recent news item added (mC9b) the
LEARNING state reports 0 data points, not 2, because the absent correlation
defaults the count to 0. -/
theorem C9_cex :
    alookup "X" (learnMem mC9).correlations = none ∧
    (predictMem 10 "X" (learnMem mC9)).2.direction = "NEUTRAL" ∧
    (predictMem 10 "X" mC9b).2 = ⟨"LEARNING", 0, learningMsg 0⟩ ∧
    ("NEUTRAL" : String) ≠ "LEARNING" ∧ learningMsg 0 ≠ learningMsg 2 := by
  refine ⟨rfl, rfl, rfl, by decide, by decide⟩

/-- C9 amended: an instrument with exactly 2 price points keeps no
correlation record after learning, and with no news observations at all
predict_movement returns the NEUTRAL insufficient-news state rather than a
LEARNING state carrying the point count. -/
theorem C9_amended : ∀ (m : Memory) (sym : String) (today : ℕ)
    (hist : List PricePoint),
    (m.stock_history.map Prod.fst).Nodup →
    alookup sym m.stock_history = some hist →
    hist.length = 2 →
    alookup sym m.correlations = none →
    alookup sym (learnMem m).correlations = none ∧
    (m.news_sentiment = [] →
      predictMem today sym (learnMem m) =
        (learnMem m,
         ⟨"NEUTRAL", 0, "Not enough recent news data to make a prediction."⟩)) := by
  intro m sym today hist hn hh hlen hc
  constructor
  · show alookup sym
      (m.stock_history.foldl (learnStep m.news_sentiment) m.correlations) = none
    rw [alookup_foldl_untouched]
    · exact hc
    · intro e he hek
      have h2 := alookup_unique sym hist m.stock_history hn hh e he hek
      rw [h2, hlen]
      omega
  · intro hnews
    have hrec : recentOf today (learnMem m) = [] := by
      unfold recentOf
      have hsame : (learnMem m).news_sentiment = m.news_sentiment := rfl
      rw [hsame, hnews]
      rfl
    unfold predictMem
    rw [if_pos hrec]

/-- C9 witness: the amended statement holds at the concrete memory mC9. -/
theorem C9_witness :
    alookup "X" (learnMem mC9).correlations = none ∧
    predictMem 10 "X" (learnMem mC9) =
      (learnMem mC9,
       ⟨"NEUTRAL", 0, "Not enough recent news data to make a prediction."⟩) := by
  have h := C9_amended mC9 "X" 10 histC9 (by decide) rfl rfl rfl
  exact ⟨h.1, h.2 rfl⟩

-- ── helper lemmas on grading ──

theorem grade_already (hist : List (String × List PricePoint))
    (p : PredictionRecord) (h : p.verified = true) :
    gradePred hist p = (p, false) := by
  unfold gradePred
  rw [if_pos h]

theorem grade_idem (hist : List (String × List PricePoint))
    (p : PredictionRecord) :
    gradePred hist ((gradePred hist p).1) = ((gradePred hist p).1, false) := by
  by_cases hv : p.verified = true
  · rw [grade_already hist p hv]
    exact grade_already hist p hv
  · cases hfind : firstAfter ((alookup p.symbol hist).getD []) p.date with
    | none =>
      have h1 : gradePred hist p = (p, false) := by
        unfold gradePred
        rw [if_neg hv, hfind]
      rw [h1]
      exact h1
    | some hh =>
      have h2 : (gradePred hist p).1.verified = true := by
        unfold gradePred
        rw [if_neg hv, hfind]
      exact grade_already hist _ h2

theorem countP_grade_zero (m : Memory)
    (h : ∀ p ∈ m.predictions_log, gradePred m.stock_history p = (p, false)) :
    ((m.predictions_log.map (gradePred m.stock_history)).countP (fun r => r.2)) = 0 := by
  rw [List.countP_map, List.countP_eq_zero]
  intro p hp
  simp [Function.comp, h p hp]

theorem verify_fixed (m : Memory)
    (h : ∀ p ∈ m.predictions_log, gradePred m.stock_history p = (p, false)) :
    verifyMem m = m := by
  unfold verifyMem
  rw [if_neg (by rw [countP_grade_zero m h]; omega)]

-- ── C4: verification grades each record at most once ──

/-- C4: running verify_past_predictions twice yields the same memory, hence
the same predictions_log and the same LearningStats totals, as running it
once; and a record already marked verified is never re-graded. -/
theorem C4_idem :
    (∀ m : Memory, verifyMem (verifyMem m) = verifyMem m) ∧
    (∀ (hist : List (String × List PricePoint)) (p : PredictionRecord),
      p.verified = true → gradePred hist p = (p, false)) := by
  constructor
  · intro m
    by_cases hc : 0 < ((m.predictions_log.map (gradePred m.stock_history)).countP
        (fun r => r.2))
    · have hsh : (verifyMem m).stock_history = m.stock_history := by
        unfold verifyMem
        split <;> rfl
      have hlog : (verifyMem m).predictions_log =
          (m.predictions_log.map (gradePred m.stock_history)).map Prod.fst := by
        unfold verifyMem
        rw [if_pos hc]
      apply verify_fixed
      intro p hp
      rw [hsh]
      rw [hlog, List.map_map] at hp
      obtain ⟨q, hq, rfl⟩ := List.mem_map.mp hp
      exact grade_idem m.stock_history q
    · have h0 : verifyMem m = m := by
        unfold verifyMem
        rw [if_neg hc]
      rw [h0]
      exact h0
  · intro hist p h
    exact grade_already hist p h

/-- C4 witness: an already verified record is returned unchanged and not
counted as newly verified. -/
theorem C4_witness : gradePred [] pC4 = (pC4, false) :=
  C4_idem.2 [] pC4 rfl

-- ── helper lemmas on the predictor ──

theorem preLearn_log (s : String) (m : Memory) :
    (preLearn s m).predictions_log = m.predictions_log := by
  unfold preLearn
  split <;> rfl

theorem lastN_length_le {α : Type} (n : ℕ) (l : List α) :
    (lastN n l).length ≤ n := by
  unfold lastN
  rw [List.length_drop]
  omega

theorem distEq (s mean : ℚ) :
    (if mean ≠ 0 then |s - mean| else 1) = adjDist s mean := by
  by_cases h : mean = 0 <;> simp [adjDist, h]

-- ── C8: direction from nearest bucket mean ──

/-- C8 counterexample: at the concrete memory mC8 the current sentiment 1/10
is strictly nearer to the up-bucket mean 0 than to the down-bucket mean 1/2,
so the claim requires UP, but the code returns DOWN because a bucket mean of
exactly 0 is replaced by the fixed distance 1. -/
theorem C8_cex :
    (predictMem 10 "X" mC8).2.direction = "DOWN 📉" ∧
    |(1/10 : ℚ) - cC8.avg_sentiment_before_up| <
      |(1/10 : ℚ) - cC8.avg_sentiment_before_down| ∧
    ("DOWN 📉" : String) ≠ "UP 📈" := by
  refine ⟨?_, ?_, by decide⟩
  · unfold predictMem
    rw [show recentOf 10 mC8 = [1/10] from rfl]
    rw [if_neg (show ¬([(1:ℚ)/10] = []) by simp)]
    rw [show alookup "X" (preLearn "X" mC8).correlations = some cC8 from rfl]
    norm_num [cC8, predDirection]
    rw [show |(2:ℚ)/5| = 2/5 from abs_of_pos (by norm_num)]
    norm_num
  · rw [show cC8.avg_sentiment_before_up = 0 from rfl,
        show cC8.avg_sentiment_before_down = 1/2 from rfl]
    rw [sub_zero, show |(1/10 : ℚ)| = 1/10 from abs_of_pos (by norm_num)]
    rw [show (1/10 : ℚ) - 1/2 = -(2/5) by norm_num, abs_neg,
        show |(2:ℚ)/5| = 2/5 from abs_of_pos (by norm_num)]
    norm_num

/-- C8 amended: on the directional path the direction is decided by the
adjusted distances, where a bucket mean of exactly 0 contributes the fixed
distance 1 instead of the absolute difference; the strictly nearer adjusted
distance wins and an exact tie yields SIDEWAYS. -/
theorem C8_amended : ∀ s up down : ℚ,
    (predDirection s up down = "UP 📈" ↔ adjDist s up < adjDist s down) ∧
    (predDirection s up down = "DOWN 📉" ↔ adjDist s down < adjDist s up) ∧
    (predDirection s up down = "SIDEWAYS ➡️" ↔ adjDist s up = adjDist s down) := by
  intro s up down
  have hd : predDirection s up down =
      (if adjDist s up < adjDist s down then "UP 📈"
       else if adjDist s down < adjDist s up then "DOWN 📉"
       else "SIDEWAYS ➡️") := by
    simp only [predDirection]
    rw [distEq s up, distEq s down]
  rw [hd]
  by_cases h1 : adjDist s up < adjDist s down
  · rw [if_pos h1]
    exact ⟨⟨fun _ => h1, fun _ => rfl⟩,
      ⟨fun hx => absurd hx (by decide), fun h2 => absurd h1 (lt_asymm h2)⟩,
      ⟨fun hx => absurd hx (by decide),
       fun h2 => absurd h1 (by rw [h2]; exact lt_irrefl _)⟩⟩
  · rw [if_neg h1]
    by_cases h2 : adjDist s down < adjDist s up
    · rw [if_pos h2]
      exact ⟨⟨fun hx => absurd hx (by decide), fun hlt => absurd hlt h1⟩,
        ⟨fun _ => h2, fun _ => rfl⟩,
        ⟨fun hx => absurd hx (by decide),
         fun he => absurd h2 (by rw [he]; exact lt_irrefl _)⟩⟩
    · rw [if_neg h2]
      have heq : adjDist s up = adjDist s down :=
        le_antisymm (not_lt.mp h2) (not_lt.mp h1)
      exact ⟨⟨fun hx => absurd hx (by decide), fun hlt => absurd hlt h1⟩,
        ⟨fun hx => absurd hx (by decide), fun hlt => absurd hlt h2⟩,
        ⟨fun _ => heq, fun _ => rfl⟩⟩

/-- C8 witness: with up mean 0 and down mean 1/2, current sentiment 1/10
gives DOWN by the amended rule. -/
theorem C8_witness : predDirection (1/10) 0 (1/2) = "DOWN 📉" := by
  have h1 : adjDist (1/10 : ℚ) (1/2) = 2/5 := by
    unfold adjDist
    rw [if_neg (by norm_num),
        show (1/10 : ℚ) - 1/2 = -(2/5) by norm_num, abs_neg]
    exact abs_of_pos (by norm_num)
  have h2 : adjDist (1/10 : ℚ) 0 = 1 := by
    unfold adjDist
    rw [if_pos rfl]
  exact (C8_amended (1/10) 0 (1/2)).2.1.mpr (by rw [h1, h2]; norm_num)

-- ── C7: which calls append a PredictionRecord ──

/-- C7 counterexample: a call on the default memory, which has no recent
news, returns NEUTRAL and leaves the prediction log empty, so this call
appends no record at all, while the claim requires one appended record on
every call. -/
theorem C7_cex :
    (predictMem 10 "X" defaultMemory).1.predictions_log =
      ([] : List PredictionRecord) ∧
    (predictMem 10 "X" defaultMemory).2.direction = "NEUTRAL" ∧
    ([] : List PredictionRecord).length ≠ ([] : List PredictionRecord).length + 1 := by
  refine ⟨rfl, rfl, by norm_num⟩

/-- C7 amended: only the directional-prediction path appends one
PredictionRecord, with the log then cut to the most recent 500 entries; the
NEUTRAL no-recent-news outcome and the LEARNING outcome return with the log
unchanged.  In every case a log bounded by 500 stays bounded by 500. -/
theorem C7_amended : ∀ (today : ℕ) (sym : String) (m : Memory),
    (((predictMem today sym m).2.direction = "NEUTRAL" ∨
        (predictMem today sym m).2.direction = "LEARNING") ∧
      (predictMem today sym m).1.predictions_log = m.predictions_log ∨
     ∃ r : PredictionRecord,
       (predictMem today sym m).1.predictions_log =
         lastN 500 (m.predictions_log ++ [r]) ∧
       r.date = today ∧ r.symbol = sym ∧ r.verified = false) ∧
    (m.predictions_log.length ≤ 500 →
      (predictMem today sym m).1.predictions_log.length ≤ 500) := by
  intro today sym m
  by_cases hrec : recentOf today m = []
  · have hp : predictMem today sym m =
        (m, ⟨"NEUTRAL", 0, "Not enough recent news data to make a prediction."⟩) := by
      unfold predictMem
      rw [if_pos hrec]
    rw [hp]
    exact ⟨Or.inl ⟨Or.inl rfl, rfl⟩, fun h => h⟩
  · cases hcl : alookup sym (preLearn sym m).correlations with
    | none =>
      have hp : predictMem today sym m =
          (preLearn sym m, ⟨"LEARNING", 0, learningMsg 0⟩) := by
        unfold predictMem
        rw [if_neg hrec, hcl]
      rw [hp]
      refine ⟨Or.inl ⟨Or.inr rfl, preLearn_log sym m⟩, ?_⟩
      intro h
      show (preLearn sym m).predictions_log.length ≤ 500
      rw [preLearn_log sym m]
      exact h
    | some c =>
      by_cases hdp : c.data_points < 3
      · have hp : predictMem today sym m =
            (preLearn sym m, ⟨"LEARNING", 0, learningMsg c.data_points⟩) := by
          unfold predictMem
          rw [if_neg hrec, hcl]
          dsimp only
          rw [if_pos hdp]
        rw [hp]
        refine ⟨Or.inl ⟨Or.inr rfl, preLearn_log sym m⟩, ?_⟩
        intro h
        show (preLearn sym m).predictions_log.length ≤ 500
        rw [preLearn_log sym m]
        exact h
      · have hp : predictMem today sym m =
            ({ preLearn sym m with predictions_log :=
                 (lastN 500 ((preLearn sym m).predictions_log ++
                   [{ date := today, symbol := sym,
                      predicted_direction := predDirection
                        ((recentOf today m).sum / ((recentOf today m).length : ℚ))
                        c.avg_sentiment_before_up c.avg_sentiment_before_down,
                      confidence := predConfidence c.data_points
                        c.sentiment_impact_score,
                      news_sentiment := rhe3
                        ((recentOf today m).sum / ((recentOf today m).length : ℚ)),
                      actual_direction := none, actual_change := none,
                      correct := none, verified := false }])) },
             ⟨predDirection
                ((recentOf today m).sum / ((recentOf today m).length : ℚ))
                c.avg_sentiment_before_up c.avg_sentiment_before_down,
              predConfidence c.data_points c.sentiment_impact_score,
              predReasoning c
                ((recentOf today m).sum / ((recentOf today m).length : ℚ))⟩) := by
          unfold predictMem
          rw [if_neg hrec, hcl]
          dsimp only
          rw [if_neg hdp]
        rw [hp]
        constructor
        · right
          refine ⟨{ date := today, symbol := sym,
                    predicted_direction := predDirection
                      ((recentOf today m).sum / ((recentOf today m).length : ℚ))
                      c.avg_sentiment_before_up c.avg_sentiment_before_down,
                    confidence := predConfidence c.data_points
                      c.sentiment_impact_score,
                    news_sentiment := rhe3
                      ((recentOf today m).sum / ((recentOf today m).length : ℚ)),
                    actual_direction := none, actual_change := none,
                    correct := none, verified := false }, ?_, rfl, rfl, rfl⟩
          rw [preLearn_log sym m]
        · intro _
          exact lastN_length_le 500 _

/-- C7 witness: on the default memory the log stays within the 500 bound. -/
theorem C7_witness :
    (predictMem 10 "X" defaultMemory).1.predictions_log.length ≤ 500 :=
  (C7_amended 10 "X" defaultMemory).2 (by decide)

-- ── C1: predictor confidence ──

/-- C1 counterexample: for the correlation record cC1 with 4 data points and
impact 0, the code returns confidence 2.7 on the directional path, but the
exact formula of the claim gives 8/3, because the code rounds to one
decimal before capping. -/
theorem C1_cex :
    (predictMem 10 "X" mC1).2.confidence = 27/10 ∧
    min (100 * (0.4 * min ((cC1.data_points : ℚ) / 60) 1 +
      0.6 * min (cC1.sentiment_impact_score * 2) 1)) 85 = 8/3 ∧
    (27/10 : ℚ) ≠ 8/3 := by
  refine ⟨?_, ?_, by norm_num⟩
  · have hrec : ¬(recentOf 10 mC1 = []) := by
      rw [show recentOf 10 mC1 = [0] from rfl]
      simp
    have hconf : (predictMem 10 "X" mC1).2.confidence = predConfidence 4 0 := by
      unfold predictMem
      rw [if_neg hrec,
          show alookup "X" (preLearn "X" mC1).correlations = some cC1 from rfl]
      dsimp only
      rw [if_neg (by decide : ¬(cC1.data_points < 3))]
      rfl
    rw [hconf]
    norm_num [predConfidence, rhe1, rhe, min_def]
  · rw [show cC1.data_points = 4 from rfl,
        show cC1.sentiment_impact_score = 0 from rfl]
    norm_num [min_def]

/-- C1 amended: on the directional path the confidence equals the spec
formula rounded to one decimal and then capped at 85, and in particular it
never exceeds 85. -/
theorem C1_amended : ∀ (today : ℕ) (sym : String) (m : Memory) (c : Corr),
    recentOf today m ≠ [] →
    alookup sym m.correlations = some c →
    0 ≤ c.sentiment_impact_score →
    3 ≤ c.data_points →
    (predictMem today sym m).2.confidence =
      min (rhe1 (100 * (0.4 * min ((c.data_points : ℚ) / 60) 1 +
        0.6 * min (c.sentiment_impact_score * 2) 1))) 85 ∧
    (predictMem today sym m).2.confidence ≤ 85 := by
  intro today sym m c hrec hc him hdp
  have hpre : preLearn sym m = m := by
    unfold preLearn
    rw [hc]
    rfl
  have hcl : alookup sym (preLearn sym m).correlations = some c := by
    rw [hpre]
    exact hc
  have hconf : (predictMem today sym m).2.confidence =
      predConfidence c.data_points c.sentiment_impact_score := by
    unfold predictMem
    rw [if_neg hrec, hcl]
    dsimp only
    rw [if_neg (by omega)]
  constructor
  · rw [hconf]
    unfold predConfidence
    have harg : (min ((c.data_points : ℚ) / 60) 1 * 0.4 +
        min (c.sentiment_impact_score * 2) 1 * 0.6) * 100 =
        100 * (0.4 * min ((c.data_points : ℚ) / 60) 1 +
          0.6 * min (c.sentiment_impact_score * 2) 1) := by ring
    rw [harg]
  · rw [hconf]
    exact min_le_right _ 85

/-- C1 witness: the bound holds at the concrete memory mC1. -/
theorem C1_witness : (predictMem 10 "X" mC1).2.confidence ≤ 85 :=
  (C1_amended 10 "X" mC1 cC1
    (by rw [show recentOf 10 mC1 = [0] from rfl]; simp)
    rfl (by norm_num [cC1]) (by norm_num [cC1])).2
